import Mathlib

/-!
Shallow embedding of `src/main.py` (class `Date`): validated construction,
tuple comparison, day arithmetic through the host `datetime` library, and
Ukrainian rendering.  Machine integers are Python arbitrary-precision
integers, embedded as `Int`; calendar ordinals live in `Nat`.
-/

namespace Lab4

/-- Python exception classes that the program and its `datetime` collaborator
raise: `TypeError`, `ValueError` and `OverflowError` (three distinct classes
in Python's exception hierarchy; `OverflowError` is *not* a `ValueError`). -/
inductive PyErr where
  | typeError (msg : String)
  | valueError (msg : String)
  | overflowError (msg : String)
  deriving Repr, DecidableEq

/-- Python run-time values, as far as the `isinstance(x, int)` gate of
`Date.__init__` distinguishes them: genuine `int`s, `bool`s (in Python,
`bool` is a subclass of `int`), strings, and anything else. -/
inductive PyVal where
  | vint (n : Int)
  | vbool (b : Bool)
  | vstr (s : String)
  | vother
  deriving Repr, DecidableEq

/-- Embeds Python's `isinstance(x, int)`: true for `int` values and also for
`bool` values, because `bool` is a subclass of `int` in Python. -/
def PyVal.isInstInt : PyVal → Bool
  | .vint _ => true
  | .vbool _ => true
  | _ => false

/-- Numeric value of a Python `int`-class value (`True == 1`, `False == 0`);
the default branch is never reached after an `isinstance(x, int)` check. -/
def PyVal.toInt : PyVal → Int
  | .vint n => n
  | .vbool b => if b then 1 else 0
  | _ => 0

/-- Embeds the static method `Date._is_leap_year` (src/main.py line 143):
`year % 4 == 0 and (year % 100 != 0 or year % 400 == 0)`.  Lean's `%` on
`Int` is `emod`, which agrees with Python's `%` for positive moduli. -/
def isLeapYear (year : Int) : Bool :=
  decide (year % 4 = 0) && (decide (year % 100 ≠ 0) || decide (year % 400 = 0))

/-- The validated value object: the three fields stored by `Date.__init__`. -/
structure Date where
  day : Int
  month : Int
  year : Int
  deriving Repr, DecidableEq

/-- Embeds the `max_day` computation inside `Date.__init__`
(src/main.py lines 36-42). -/
def maxDayFor (month year : Int) : Int :=
  if month = 2 then (if isLeapYear year then 29 else 28)
  else if month = 4 ∨ month = 6 ∨ month = 9 ∨ month = 11 then 30
  else 31

/-- Embeds the body of `Date.__init__` after the `isinstance` gate
(src/main.py lines 29-49): the range checks in source order, the error
messages, and the stored fields. -/
def mkDate (day month year : Int) : Except PyErr Date :=
  if year ≤ 0 then .error (.valueError "Рік повинен бути додатнім.")
  else if month < 1 ∨ month > 12 then
    .error (.valueError "Місяць повинен бути в діапазоні 1-12.")
  else if day < 1 then .error (.valueError "День повинен бути додатнім.")
  else if day > maxDayFor month year then
    .error (.valueError ("У " ++ toString month ++ "-му місяці не може бути "
      ++ toString day ++ " днів."))
  else .ok ⟨day, month, year⟩

/-- Embeds `Date.__init__` in full (src/main.py lines 27-49): the
`isinstance(x, int)` gate over all three arguments, then the range checks. -/
def Date.create (day month year : PyVal) : Except PyErr Date :=
  if !(day.isInstInt && month.isInstInt && year.isInstInt) then
    .error (.typeError "День, місяць і рік повинні бути цілими числами.")
  else mkDate day.toInt month.toInt year.toInt

/-- The invariant `Date.__init__` establishes: exactly the combinations of
fields that the constructor accepts. -/
def Date.Valid (dt : Date) : Prop :=
  1 ≤ dt.year ∧ 1 ≤ dt.month ∧ dt.month ≤ 12 ∧ 1 ≤ dt.day ∧
    dt.day ≤ maxDayFor dt.month dt.year

instance (dt : Date) : Decidable dt.Valid := by
  unfold Date.Valid; infer_instance

/-- Embeds `Date.__eq__` (src/main.py lines 60-72): componentwise tuple
equality `(day, month, year) == (day, month, year)`. -/
def Date.beq (a b : Date) : Bool :=
  decide (a.day = b.day) && decide (a.month = b.month) && decide (a.year = b.year)

/-- Embeds `Date.__lt__` (src/main.py lines 74-86): Python's lexicographic
comparison of the tuples `(year, month, day)`. -/
def Date.lt (a b : Date) : Bool :=
  decide (a.year < b.year) ||
    (decide (a.year = b.year) &&
      (decide (a.month < b.month) ||
        (decide (a.month = b.month) && decide (a.day < b.day))))

/-- Embeds `Date.__gt__` (src/main.py lines 88-100): Python's lexicographic
comparison of the tuples `(year, month, day)` in the other direction. -/
def Date.gt (a b : Date) : Bool :=
  decide (a.year > b.year) ||
    (decide (a.year = b.year) &&
      (decide (a.month > b.month) ||
        (decide (a.month = b.month) && decide (a.day > b.day))))

/-- Embeds the instance method `Date.is_leap_year` (src/main.py lines
133-140), which delegates to the static helper on the stored year. -/
def Date.isLeap (dt : Date) : Bool := isLeapYear dt.year

/-- Embeds Python's format spec `f"{n:02d}"` for the values it is applied to
(non-negative day and month numbers): zero-pad the decimal rendering to a
minimum width of two characters. -/
def format02 (n : Int) : String :=
  let s := toString n
  if s.length < 2 then "0" ++ s else s

/-- Embeds `Date.__str__` (src/main.py lines 51-58):
`f"{day:02d}.{month:02d}.{year}"`. -/
def Date.str (dt : Date) : String :=
  format02 dt.day ++ "." ++ format02 dt.month ++ "." ++ toString dt.year

/-- The literal 12-entry table of Ukrainian genitive month names from
`Date.month_name` (src/main.py lines 162-165). -/
def monthsUk : List String :=
  ["січня", "лютого", "березня", "квітня", "травня", "червня",
   "липня", "серпня", "вересня", "жовтня", "листопада", "грудня"]

/-- Embeds `Date.month_name` (src/main.py lines 155-166):
`f"{day} {months[month - 1]} {year} рік"`.  The table index is in range for
every validated date, so the `getD` default is never used. -/
def Date.monthName (dt : Date) : String :=
  toString dt.day ++ " " ++ monthsUk.getD (dt.month - 1).toNat "" ++ " "
    ++ toString dt.year ++ " рік"

/-! The calendar-arithmetic collaborator: CPython's `datetime.date`.
`Date.__sub__`, `Date.__add__` and `Date.day_of_week` delegate to it.  Its
proleptic-Gregorian formulas (`_is_leap`, `_days_in_month`,
`_days_before_month`, `_days_before_year`, `_ymd2ord`) are embedded below;
its ordinal-to-date direction (`_ord2ymd`) is embedded as a fuel-bounded
linear scan computing the same (unique) inverse value. -/

/-- Embeds `datetime._is_leap` on natural-number years. -/
def leapN (y : Nat) : Bool :=
  decide (y % 4 = 0) && (decide (y % 100 ≠ 0) || decide (y % 400 = 0))

/-- Embeds `datetime._days_in_month` (`_DAYS_IN_MONTH` table plus the
February leap adjustment); months outside 1..12 are never queried, the
default 31 merely keeps the function total. -/
def daysInMonth (y m : Nat) : Nat :=
  if m = 2 ∧ leapN y = true then 29
  else match m with
    | 1 => 31 | 2 => 28 | 3 => 31 | 4 => 30 | 5 => 31 | 6 => 30
    | 7 => 31 | 8 => 31 | 9 => 30 | 10 => 31 | 11 => 30 | 12 => 31
    | _ => 31

/-- Embeds `datetime._days_before_month` (`_DAYS_BEFORE_MONTH` table plus
the leap adjustment for months after February). -/
def daysBeforeMonth (y m : Nat) : Nat :=
  (match m with
    | 1 => 0 | 2 => 31 | 3 => 59 | 4 => 90 | 5 => 120 | 6 => 151
    | 7 => 181 | 8 => 212 | 9 => 243 | 10 => 273 | 11 => 304 | 12 => 334
    | _ => 0)
  + (if 2 < m ∧ leapN y = true then 1 else 0)

/-- Number of days in year `y` (366 in a leap year, 365 otherwise). -/
def daysInYear (y : Nat) : Nat := if leapN y then 366 else 365

/-- Embeds `datetime._days_before_year`: days in the proleptic Gregorian
calendar strictly before January 1st of year `y`. -/
def daysBeforeYear (y : Nat) : Nat :=
  (y - 1) * 365 + (y - 1) / 4 - (y - 1) / 100 + (y - 1) / 400

/-- Embeds `datetime._ymd2ord`: the proleptic Gregorian ordinal of a date,
with day 1 = January 1st of year 1. -/
def ymd2ord (y m d : Nat) : Nat := daysBeforeYear y + daysBeforeMonth y m + d

/-- Embeds `datetime.date.max.toordinal()`, CPython's `_MAXORDINAL`. -/
def MAXORDINAL : Nat := ymd2ord 9999 12 31

/-- Year scan of the ordinal-to-date conversion: starting from year `y`,
peel whole years off the day count `n` until it fits inside one year.  The
fuel bound makes the recursion structural; every reachable call site supplies
enough fuel for the scan to finish. -/
def findYear : Nat → Nat → Nat → Nat × Nat
  | 0, n, y => (y, n)
  | fuel + 1, n, y =>
    if n ≤ daysInYear y then (y, n) else findYear fuel (n - daysInYear y) (y + 1)

/-- Month scan of the ordinal-to-date conversion: starting from month `m` of
year `y`, peel whole months off the day count `n` until it fits inside one
month. -/
def findMonth (y : Nat) : Nat → Nat → Nat → Nat × Nat
  | 0, n, m => (m, n)
  | fuel + 1, n, m =>
    if n ≤ daysInMonth y m then (m, n)
    else findMonth y fuel (n - daysInMonth y m) (m + 1)

/-- Embeds `datetime._ord2ymd`: converts an ordinal back to `(year, month,
day)`.  CPython computes this with closed-form divisions; the linear scans
here compute the same value, namely the unique calendar date whose
`ymd2ord` is the given ordinal (proved below). -/
def ord2ymd (n : Nat) : Nat × Nat × Nat :=
  let p := findYear 10000 n 1
  let q := findMonth p.1 12 p.2 1
  (p.1, q.1, q.2)

/-- Embeds the range validation of the `datetime.date(year, month, day)`
constructor: `MINYEAR = 1 ≤ year ≤ MAXYEAR = 9999`, a month in 1..12, and a
day within the month, each violation raising `ValueError`. -/
def pyDateCheck (y m d : Int) : Except PyErr Unit :=
  if y < 1 ∨ 9999 < y then
    .error (.valueError ("year " ++ toString y ++ " is out of range"))
  else if m < 1 ∨ 12 < m then .error (.valueError "month must be in 1..12")
  else if d < 1 ∨ (daysInMonth y.toNat m.toNat : Int) < d then
    .error (.valueError "day is out of range for month")
  else .ok ()

/-- Ordinal of a `Date`'s fields, as `datetime.date(...).toordinal()`
computes it once the fields pass the `datetime.date` constructor. -/
def ordOf (dt : Date) : Nat := ymd2ord dt.year.toNat dt.month.toNat dt.day.toNat

/-- Embeds `Date.__sub__` (src/main.py lines 102-116): builds the two
`datetime.date` values (each constructor can raise `ValueError`), then
returns the signed ordinal difference `(d1 - d2).days`. -/
def Date.sub (a b : Date) : Except PyErr Int :=
  match pyDateCheck a.year a.month a.day with
  | .error e => .error e
  | .ok _ =>
    match pyDateCheck b.year b.month b.day with
    | .error e => .error e
    | .ok _ => .ok ((ordOf a : Int) - (ordOf b : Int))

/-- Embeds `Date.__add__` (src/main.py lines 118-131): builds
`datetime.date(self...)` (which can raise `ValueError`), adds
`timedelta(days=days)` — CPython raises `OverflowError` when the resulting
ordinal leaves `1..MAXORDINAL` — and feeds the resulting calendar fields
back through the validating `Date` constructor. -/
def Date.add (a : Date) (days : Int) : Except PyErr Date :=
  match pyDateCheck a.year a.month a.day with
  | .error e => .error e
  | .ok _ =>
    let o : Int := (ordOf a : Int) + days
    if o < 1 ∨ (MAXORDINAL : Int) < o then .error (.overflowError "result out of range")
    else
      let t := ord2ymd o.toNat
      mkDate (t.2.2 : Int) (t.2.1 : Int) (t.1 : Int)

/-- The literal 7-entry table of Ukrainian weekday names from
`Date.day_of_week` (src/main.py lines 175-178), Monday first. -/
def weekdaysUk : List String :=
  ["Понеділок", "Вівторок", "Середа", "Четвер", "П’ятниця", "Субота", "Неділя"]

/-- Embeds `Date.day_of_week` (src/main.py lines 168-180): builds
`datetime.date(...)` (which can raise `ValueError`) and indexes the table by
`weekday()`, which CPython computes as `(toordinal() + 6) % 7` with
0 = Monday. -/
def Date.dayOfWeek (dt : Date) : Except PyErr String :=
  match pyDateCheck dt.year dt.month dt.day with
  | .error e => .error e
  | .ok _ => .ok (weekdaysUk.getD ((ordOf dt + 6) % 7) "")

/-! Decidability of equality on `Except` results, so that concrete runs of
the embedded operations can be checked by `decide`. -/

instance {ε α : Type} [DecidableEq ε] [DecidableEq α] : DecidableEq (Except ε α) := fun x y =>
  match x, y with
  | .ok a, .ok b =>
    if h : a = b then .isTrue (congrArg Except.ok h)
    else .isFalse (fun hh => h (Except.ok.inj hh))
  | .error a, .error b =>
    if h : a = b then .isTrue (congrArg Except.error h)
    else .isFalse (fun hh => h (Except.error.inj hh))
  | .ok _, .error _ => .isFalse (fun hh => Except.noConfusion hh)
  | .error _, .ok _ => .isFalse (fun hh => Except.noConfusion hh)

/-- Classifier for refutations: whether a result is a `ValueError`-class
failure. -/
def isValueErr {α : Type} : Except PyErr α → Bool
  | .error (.valueError _) => true
  | _ => false

/-! Arithmetic facts about the collaborator's calendar functions. -/

theorem leapN_iff (y : Nat) : leapN y = true ↔ (y % 4 = 0 ∧ (y % 100 ≠ 0 ∨ y % 400 = 0)) := by
  simp [leapN]

theorem daysInYear_eq (y : Nat) :
    daysInYear y = if y % 4 = 0 ∧ (y % 100 ≠ 0 ∨ y % 400 = 0) then 366 else 365 := by
  by_cases h : y % 4 = 0 ∧ (y % 100 ≠ 0 ∨ y % 400 = 0)
  · rw [if_pos h]
    have hb : leapN y = true := (leapN_iff y).mpr h
    simp [daysInYear, hb]
  · rw [if_neg h]
    have hb : leapN y = false := by
      cases hb : leapN y
      · rfl
      · exact absurd ((leapN_iff y).mp hb) h
    simp [daysInYear, hb]

theorem daysInYear_pos (y : Nat) : 0 < daysInYear y := by
  rw [daysInYear_eq]; split <;> omega

set_option maxHeartbeats 1000000 in
theorem daysBeforeYear_succ (y : Nat) (hy : 1 ≤ y) :
    daysBeforeYear (y + 1) = daysBeforeYear y + daysInYear y := by
  rw [daysInYear_eq]
  unfold daysBeforeYear
  split <;> omega

theorem daysBeforeYear_mono (a b : Nat) (ha : 1 ≤ a) (hab : a ≤ b) :
    daysBeforeYear a ≤ daysBeforeYear b := by
  induction b, hab using Nat.le_induction with
  | base => exact le_rfl
  | succ b hb ih =>
    have := daysBeforeYear_succ b (by omega)
    have := daysInYear_pos b
    omega

theorem daysBeforeMonth_one (y : Nat) : daysBeforeMonth y 1 = 0 := rfl

theorem daysBeforeMonth_succ (y m : Nat) (hm : 1 ≤ m) (hm2 : m ≤ 11) :
    daysBeforeMonth y (m + 1) = daysBeforeMonth y m + daysInMonth y m := by
  interval_cases m <;> cases hb : leapN y <;>
    simp [daysBeforeMonth, daysInMonth, hb]

theorem daysBeforeMonth_mono (y a b : Nat) (ha : 1 ≤ a) (hab : a ≤ b) (hb : b ≤ 12) :
    daysBeforeMonth y a ≤ daysBeforeMonth y b := by
  have H : ∀ c, a ≤ c → c ≤ 12 → daysBeforeMonth y a ≤ daysBeforeMonth y c := by
    intro c hac
    induction c, hac using Nat.le_induction with
    | base => intro _; exact le_rfl
    | succ c hc ih =>
      intro h12
      have h1 := ih (by omega)
      have h2 := daysBeforeMonth_succ y c (by omega) (by omega)
      omega
  exact H b hab hb

theorem daysBeforeMonth_last (y : Nat) :
    daysBeforeMonth y 12 + daysInMonth y 12 = daysInYear y := by
  cases hb : leapN y <;> simp [daysBeforeMonth, daysInMonth, daysInYear, hb]

theorem daysBeforeMonth_add_le (y m : Nat) (hm : 1 ≤ m) (hm2 : m ≤ 12) :
    daysBeforeMonth y m + daysInMonth y m ≤ daysInYear y := by
  rcases Nat.lt_or_ge m 12 with h | h
  · rw [← daysBeforeMonth_succ y m hm (by omega)]
    have h1 := daysBeforeMonth_mono y (m + 1) 12 (by omega) (by omega) le_rfl
    have h2 := daysBeforeMonth_last y
    omega
  · have : m = 12 := by omega
    subst this
    exact le_of_eq (daysBeforeMonth_last y)

/-! Correctness of the two linear scans in `ord2ymd`, in both directions:
they find the calendar date a given ordinal denotes, and they are fully
characterised by `daysBeforeYear`/`daysBeforeMonth`. -/

theorem findYear_found (fuel : Nat) : ∀ y0 y doy : Nat, 1 ≤ y0 → y0 ≤ y → y - y0 ≤ fuel →
    1 ≤ doy → doy ≤ daysInYear y →
    findYear fuel (daysBeforeYear y - daysBeforeYear y0 + doy) y0 = (y, doy) := by
  induction fuel with
  | zero =>
    intro y0 y doy h1 h2 h3 h4 h5
    have hy : y = y0 := by omega
    subst hy
    simp [findYear]
  | succ fuel ih =>
    intro y0 y doy h1 h2 h3 h4 h5
    by_cases hy : y = y0
    · subst hy
      simp [findYear, h5]
    · have hlt : y0 < y := by omega
      have hsucc := daysBeforeYear_succ y0 h1
      have hmono := daysBeforeYear_mono (y0 + 1) y (by omega) (by omega)
      have hcond : ¬ (daysBeforeYear y - daysBeforeYear y0 + doy ≤ daysInYear y0) := by omega
      have harg : daysBeforeYear y - daysBeforeYear y0 + doy - daysInYear y0
          = daysBeforeYear y - daysBeforeYear (y0 + 1) + doy := by omega
      simp only [findYear, if_neg hcond, harg]
      exact ih (y0 + 1) y doy (by omega) (by omega) (by omega) h4 h5

theorem findYear_bounds (fuel : Nat) : ∀ n y0 : Nat, 1 ≤ y0 → 1 ≤ n →
    daysBeforeYear y0 + n ≤ daysBeforeYear (y0 + fuel) + daysInYear (y0 + fuel) →
    1 ≤ (findYear fuel n y0).2 ∧ (findYear fuel n y0).2 ≤ daysInYear (findYear fuel n y0).1 ∧
    y0 ≤ (findYear fuel n y0).1 ∧
    daysBeforeYear (findYear fuel n y0).1 + (findYear fuel n y0).2 = daysBeforeYear y0 + n := by
  induction fuel with
  | zero =>
    intro n y0 h0 h1 h2
    simp only [Nat.add_zero] at h2
    simp only [findYear]
    exact ⟨h1, by omega, le_rfl, trivial⟩
  | succ fuel ih =>
    intro n y0 h0 h1 h2
    by_cases hc : n ≤ daysInYear y0
    · simp only [findYear, if_pos hc]
      exact ⟨h1, hc, le_rfl, trivial⟩
    · simp only [findYear, if_neg hc]
      have hstep := daysBeforeYear_succ y0 h0
      have hfix : y0 + 1 + fuel = y0 + (fuel + 1) := by omega
      have h2' : daysBeforeYear (y0 + 1) + (n - daysInYear y0)
          ≤ daysBeforeYear (y0 + 1 + fuel) + daysInYear (y0 + 1 + fuel) := by
        rw [hfix]; omega
      have h := ih (n - daysInYear y0) (y0 + 1) (by omega) (by omega) h2'
      exact ⟨h.1, h.2.1, by omega, by omega⟩

theorem findMonth_found (y fuel : Nat) : ∀ m0 m d : Nat, 1 ≤ m0 → m0 ≤ m → m ≤ 12 →
    m - m0 ≤ fuel → 1 ≤ d → d ≤ daysInMonth y m →
    findMonth y fuel (daysBeforeMonth y m - daysBeforeMonth y m0 + d) m0 = (m, d) := by
  induction fuel with
  | zero =>
    intro m0 m d h1 h2 h2' h3 h4 h5
    have hm : m = m0 := by omega
    subst hm
    simp [findMonth]
  | succ fuel ih =>
    intro m0 m d h1 h2 h2' h3 h4 h5
    by_cases hm : m = m0
    · subst hm
      simp [findMonth, h5]
    · have hlt : m0 < m := by omega
      have hsucc := daysBeforeMonth_succ y m0 h1 (by omega)
      have hmono := daysBeforeMonth_mono y (m0 + 1) m (by omega) (by omega) h2'
      have hcond : ¬ (daysBeforeMonth y m - daysBeforeMonth y m0 + d ≤ daysInMonth y m0) := by omega
      have harg : daysBeforeMonth y m - daysBeforeMonth y m0 + d - daysInMonth y m0
          = daysBeforeMonth y m - daysBeforeMonth y (m0 + 1) + d := by omega
      simp only [findMonth, if_neg hcond, harg]
      exact ih (m0 + 1) m d (by omega) (by omega) h2' (by omega) h4 h5

theorem findMonth_bounds (y fuel : Nat) : ∀ n m0 : Nat, 1 ≤ m0 → m0 ≤ 12 → 13 ≤ m0 + fuel →
    1 ≤ n → daysBeforeMonth y m0 + n ≤ daysInYear y →
    1 ≤ (findMonth y fuel n m0).2 ∧
    (findMonth y fuel n m0).2 ≤ daysInMonth y (findMonth y fuel n m0).1 ∧
    1 ≤ (findMonth y fuel n m0).1 ∧ (findMonth y fuel n m0).1 ≤ 12 ∧
    daysBeforeMonth y (findMonth y fuel n m0).1 + (findMonth y fuel n m0).2
      = daysBeforeMonth y m0 + n := by
  induction fuel with
  | zero =>
    intro n m0 h0 h00 hf h1 h2
    omega
  | succ fuel ih =>
    intro n m0 h0 h00 hf h1 h2
    by_cases hc : n ≤ daysInMonth y m0
    · simp only [findMonth, if_pos hc]
      exact ⟨h1, hc, h0, h00, trivial⟩
    · have hm11 : m0 ≤ 11 := by
        by_contra hgt
        have h12 : m0 = 12 := by omega
        subst h12
        have := daysBeforeMonth_last y
        omega
      have hsucc := daysBeforeMonth_succ y m0 h0 hm11
      simp only [findMonth, if_neg hc]
      have h := ih (n - daysInMonth y m0) (m0 + 1) (by omega) (by omega) (by omega)
        (by omega) (by omega)
      exact ⟨h.1, h.2.1, by omega, h.2.2.2.1, by omega⟩

/-- Forward roundtrip: converting a valid calendar date (year within the
`datetime` range) to its ordinal and back recovers the same date. -/
theorem ord2ymd_ymd2ord (y m d : Nat) (hy : 1 ≤ y) (hy2 : y ≤ 9999)
    (hm : 1 ≤ m) (hm2 : m ≤ 12) (hd : 1 ≤ d) (hd2 : d ≤ daysInMonth y m) :
    ord2ymd (ymd2ord y m d) = (y, m, d) := by
  have hdoy2 : daysBeforeMonth y m + d ≤ daysInYear y := by
    have := daysBeforeMonth_add_le y m hm hm2
    omega
  have hY : findYear 10000 (ymd2ord y m d) 1 = (y, daysBeforeMonth y m + d) := by
    have h := findYear_found 10000 1 y (daysBeforeMonth y m + d) le_rfl hy (by omega)
      (by omega) hdoy2
    have harg : daysBeforeYear y - daysBeforeYear 1 + (daysBeforeMonth y m + d)
        = ymd2ord y m d := by
      have h1 : daysBeforeYear 1 = 0 := rfl
      unfold ymd2ord
      omega
    rw [harg] at h
    exact h
  have hM : findMonth y 12 (daysBeforeMonth y m + d) 1 = (m, d) := by
    have h := findMonth_found y 12 1 m d le_rfl hm hm2 (by omega) hd hd2
    have harg : daysBeforeMonth y m - daysBeforeMonth y 1 + d = daysBeforeMonth y m + d := by
      have h1 : daysBeforeMonth y 1 = 0 := rfl
      omega
    rw [harg] at h
    exact h
  simp [ord2ymd, hY, hM]

/-- Backward roundtrip: every ordinal in `1..MAXORDINAL` converts to a valid
calendar date in the `datetime` range whose ordinal is that number. -/
theorem ymd2ord_ord2ymd (n : Nat) (h1 : 1 ≤ n) (h2 : n ≤ MAXORDINAL) :
    (1 ≤ (ord2ymd n).1 ∧ (ord2ymd n).1 ≤ 9999) ∧
    (1 ≤ (ord2ymd n).2.1 ∧ (ord2ymd n).2.1 ≤ 12) ∧
    (1 ≤ (ord2ymd n).2.2 ∧ (ord2ymd n).2.2 ≤ daysInMonth (ord2ymd n).1 (ord2ymd n).2.1) ∧
    ymd2ord (ord2ymd n).1 (ord2ymd n).2.1 (ord2ymd n).2.2 = n := by
  have hcap : MAXORDINAL ≤ daysBeforeYear (1 + 10000) := by decide
  have hmax : MAXORDINAL = daysBeforeYear 10000 := by decide
  have hdby1 : daysBeforeYear 1 = 0 := rfl
  have hY := findYear_bounds 10000 n 1 le_rfl h1
    (by have := daysInYear_pos (1 + 10000); omega)
  obtain ⟨hA, hB, hC, hD⟩ := hY
  set p := findYear 10000 n 1 with hp
  have hyle : p.1 ≤ 9999 := by
    by_contra hgt
    have := daysBeforeYear_mono 10000 p.1 (by omega) (by omega)
    omega
  have hdbm1 : daysBeforeMonth p.1 1 = 0 := rfl
  have hM := findMonth_bounds p.1 12 p.2 1 le_rfl (by omega) (by omega) hA (by omega)
  obtain ⟨hE, hF, hG, hH, hI⟩ := hM
  set q := findMonth p.1 12 p.2 1 with hq
  have hord : ord2ymd n = (p.1, q.1, q.2) := rfl
  rw [hord]
  refine ⟨⟨by omega, hyle⟩, ⟨hG, hH⟩, ⟨hE, hF⟩, ?_⟩
  show ymd2ord p.1 q.1 q.2 = n
  unfold ymd2ord
  omega

/-! Bridging the program's `Int` fields and the collaborator's `Nat`
calendar arithmetic. -/

theorem isLeapYear_cast (y : Nat) : isLeapYear (y : Int) = leapN y := by
  unfold isLeapYear leapN
  congr 1
  · exact decide_eq_decide.mpr (by omega)
  · congr 1
    · exact decide_eq_decide.mpr (by omega)
    · exact decide_eq_decide.mpr (by omega)

theorem maxDayFor_cast (y m : Nat) (hm : 1 ≤ m) (hm2 : m ≤ 12) :
    maxDayFor (m : Int) (y : Int) = (daysInMonth y m : Int) := by
  interval_cases m <;>
    cases hb : leapN y <;>
      norm_num [maxDayFor, daysInMonth, isLeapYear_cast, hb]

theorem Valid_toNat (dt : Date) (h : dt.Valid) :
    dt.year = (dt.year.toNat : Int) ∧ dt.month = (dt.month.toNat : Int) ∧
    dt.day = (dt.day.toNat : Int) ∧
    1 ≤ dt.year.toNat ∧ 1 ≤ dt.month.toNat ∧ dt.month.toNat ≤ 12 ∧
    1 ≤ dt.day.toNat ∧ dt.day.toNat ≤ daysInMonth dt.year.toNat dt.month.toNat := by
  obtain ⟨h1, h2, h3, h4, h5⟩ := h
  have hy : dt.year = (dt.year.toNat : Int) := by omega
  have hm : dt.month = (dt.month.toNat : Int) := by omega
  have hd : dt.day = (dt.day.toNat : Int) := by omega
  have hmax : maxDayFor dt.month dt.year
      = (daysInMonth dt.year.toNat dt.month.toNat : Int) := by
    calc maxDayFor dt.month dt.year
        = maxDayFor (dt.month.toNat : Int) (dt.year.toNat : Int) := by rw [← hm, ← hy]
      _ = (daysInMonth dt.year.toNat dt.month.toNat : Int) :=
          maxDayFor_cast dt.year.toNat dt.month.toNat (by omega) (by omega)
  rw [hmax] at h5
  exact ⟨hy, hm, hd, by omega, by omega, by omega, by omega, by omega⟩

theorem Valid_ofNat (y m d : Nat) (hy : 1 ≤ y) (hm : 1 ≤ m) (hm2 : m ≤ 12)
    (hd : 1 ≤ d) (hd2 : d ≤ daysInMonth y m) :
    Date.Valid ⟨(d : Int), (m : Int), (y : Int)⟩ := by
  unfold Date.Valid
  dsimp only
  refine ⟨by omega, by omega, by omega, by omega, ?_⟩
  rw [maxDayFor_cast y m hm hm2]
  omega

/-- Characterisation of the constructor's success case: it returns the value
object holding exactly the given fields iff they satisfy the invariant. -/
theorem mkDate_eq_ok (d m y : Int) :
    mkDate d m y = .ok ⟨d, m, y⟩ ↔ Date.Valid ⟨d, m, y⟩ := by
  unfold mkDate Date.Valid
  dsimp only
  split_ifs with h1 h2 h3 h4
  · exact iff_of_false (by simp) (fun h => by omega)
  · exact iff_of_false (by simp) (fun h => by omega)
  · exact iff_of_false (by simp) (fun h => by omega)
  · exact iff_of_false (by simp) (fun h => by omega)
  · exact iff_of_true rfl ⟨by omega, by omega, by omega, by omega, by omega⟩

theorem mkDate_invalid (d m y : Int) (h : ¬ Date.Valid ⟨d, m, y⟩) :
    ∃ msg, mkDate d m y = .error (.valueError msg) := by
  unfold Date.Valid at h
  dsimp only at h
  unfold mkDate
  split_ifs with h1 h2 h3 h4
  · exact ⟨_, rfl⟩
  · exact ⟨_, rfl⟩
  · exact ⟨_, rfl⟩
  · exact ⟨_, rfl⟩
  · exact absurd ⟨by omega, by omega, by omega, by omega, by omega⟩ h

theorem mkDate_day_overflow (d m y : Int) (h1 : 1 ≤ y) (h2 : 1 ≤ m) (h3 : m ≤ 12)
    (h4 : 1 ≤ d) (h5 : maxDayFor m y < d) :
    mkDate d m y = .error (.valueError ("У " ++ toString m ++ "-му місяці не може бути "
      ++ toString d ++ " днів.")) := by
  unfold mkDate
  rw [if_neg (by omega), if_neg (by omega), if_neg (by omega), if_pos (by omega)]

/-! Behaviour of the `datetime.date` constructor check on the program's
validated dates. -/

theorem pyDateCheck_ok (dt : Date) (h : dt.Valid) (h9 : dt.year ≤ 9999) :
    pyDateCheck dt.year dt.month dt.day = .ok () := by
  obtain ⟨hy, hm, hd, h4, h5, h6, h7, h8⟩ := Valid_toNat dt h
  have h1 := h.1
  have h2 := h.2.1
  have h3 := h.2.2.1
  unfold pyDateCheck
  rw [if_neg (by omega), if_neg (by omega), if_neg (by omega)]

theorem pyDateCheck_bigYear (y m d : Int) (h : 9999 < y) :
    pyDateCheck y m d
      = .error (.valueError ("year " ++ toString y ++ " is out of range")) := by
  unfold pyDateCheck
  rw [if_pos (by omega)]

theorem ordOf_bounds (dt : Date) (h : dt.Valid) (h9 : dt.year ≤ 9999) :
    1 ≤ ordOf dt ∧ ordOf dt ≤ MAXORDINAL := by
  obtain ⟨hy, hm, hd, h4, h5, h6, h7, h8⟩ := Valid_toNat dt h
  have hle := daysBeforeMonth_add_le dt.year.toNat dt.month.toNat h5 h6
  have hsucc := daysBeforeYear_succ dt.year.toNat h4
  have hmono := daysBeforeYear_mono (dt.year.toNat + 1) 10000 (by omega) (by omega)
  have hmax : daysBeforeYear 10000 = MAXORDINAL := by decide
  unfold ordOf ymd2ord
  omega

/-- Roundtrip at the level of the program's dates: the ordinal of a valid
in-range date converts back to exactly its fields. -/
theorem ord2ymd_ordOf (a : Date) (hv : a.Valid) (h9 : a.year ≤ 9999) :
    ord2ymd (ordOf a) = (a.year.toNat, a.month.toNat, a.day.toNat) := by
  obtain ⟨hy, hm, hd, h4, h5, h6, h7, h8⟩ := Valid_toNat a hv
  unfold ordOf
  exact ord2ymd_ymd2ord _ _ _ h4 (by omega) h5 h6 h7 h8

/-- Success case of `Date.__sub__`: both dates pass the `datetime.date`
constructor and the result is the signed ordinal difference. -/
theorem sub_ok (a b : Date) (hva : a.Valid) (hvb : b.Valid)
    (h9a : a.year ≤ 9999) (h9b : b.year ≤ 9999) :
    Date.sub a b = .ok ((ordOf a : Int) - (ordOf b : Int)) := by
  unfold Date.sub
  rw [pyDateCheck_ok a hva h9a, pyDateCheck_ok b hvb h9b]

/-- Success case of `Date.__add__`: when the shifted ordinal stays within
`1..MAXORDINAL`, the operation returns a fresh valid date whose ordinal is
shifted by exactly the given number of days. -/
theorem add_ok (a : Date) (n : Int) (hv : a.Valid) (h9 : a.year ≤ 9999)
    (h1 : 1 ≤ (ordOf a : Int) + n) (h2 : (ordOf a : Int) + n ≤ (MAXORDINAL : Int)) :
    ∃ b : Date, Date.add a n = .ok b ∧ b.Valid ∧ b.year ≤ 9999 ∧
      (ordOf b : Int) = (ordOf a : Int) + n := by
  unfold Date.add
  rw [pyDateCheck_ok a hv h9]
  rw [if_neg (by omega)]
  have hb := ymd2ord_ord2ymd ((ordOf a : Int) + n).toNat (by omega) (by omega)
  obtain ⟨⟨hy1, hy2⟩, ⟨hm1, hm2⟩, ⟨hd1, hd2⟩, heq⟩ := hb
  set t := ord2ymd ((ordOf a : Int) + n).toNat with ht
  have hvb : Date.Valid ⟨(t.2.2 : Int), (t.2.1 : Int), (t.1 : Int)⟩ :=
    Valid_ofNat t.1 t.2.1 t.2.2 hy1 hm1 hm2 hd1 hd2
  refine ⟨⟨(t.2.2 : Int), (t.2.1 : Int), (t.1 : Int)⟩,
    (mkDate_eq_ok _ _ _).mpr hvb, hvb, by show (t.1 : Int) ≤ 9999; exact_mod_cast hy2, ?_⟩
  show ((ymd2ord ((t.1 : Int)).toNat ((t.2.1 : Int)).toNat ((t.2.2 : Int)).toNat : Nat) : Int)
    = (ordOf a : Int) + n
  rw [Int.toNat_natCast, Int.toNat_natCast, Int.toNat_natCast, heq]
  omega

/-! Definitions taken from the specification's wording, for comparison with
the source-derived ones. -/

/-- Spec-side statement of the leap-year rule: divisible by 4 and (not
divisible by 100, or divisible by 400). -/
theorem isLeapYear_iff (y : Int) :
    isLeapYear y = true ↔ (4 ∣ y ∧ (¬ (100 ∣ y) ∨ 400 ∣ y)) := by
  simp only [isLeapYear, Bool.and_eq_true, Bool.or_eq_true, decide_eq_true_eq]
  omega

/-- Spec-side `max_day_for`: 29 for February of a leap year, 28 for other
Februaries, 30 for April, June, September and November, 31 otherwise. -/
def specMaxDay (month year : Int) : Int :=
  if month = 2 then (if 4 ∣ year ∧ (¬ (100 ∣ year) ∨ 400 ∣ year) then 29 else 28)
  else if month = 4 ∨ month = 6 ∨ month = 9 ∨ month = 11 then 30
  else 31

/-- The source's `max_day` computation agrees with the spec's `max_day_for`. -/
theorem maxDayFor_eq_spec (m y : Int) : maxDayFor m y = specMaxDay m y := by
  unfold maxDayFor specMaxDay
  by_cases hm : m = 2
  · rw [if_pos hm, if_pos hm]
    by_cases hp : 4 ∣ y ∧ (¬ (100 ∣ y) ∨ 400 ∣ y)
    · rw [if_pos ((isLeapYear_iff y).mpr hp), if_pos hp]
    · rw [if_neg (fun hc => hp ((isLeapYear_iff y).mp hc)), if_neg hp]
  · rw [if_neg hm, if_neg hm]

theorem format02_len (n : Int) (h1 : 1 ≤ n) (h2 : n ≤ 31) : (format02 n).length = 2 := by
  interval_cases n <;> decide

theorem toString_int_nonneg (z : Int) (h : 0 ≤ z) : toString z = Nat.repr z.toNat := by
  obtain ⟨n, rfl⟩ := Int.eq_ofNat_of_zero_le h
  rfl

/-! The claims. -/

/-- C1: for integer inputs, `create(day, month, year)` returns a `Date`
holding exactly those three fields iff `year ≥ 1`, `1 ≤ month ≤ 12` and
`1 ≤ day ≤ max_day_for(month, year)`; every invalid combination fails with a
`ValueError`-class error, and the day-overflow error names the offending
month and day count. -/
theorem claim1_create_validation (d m y : Int) :
    (Date.create (.vint d) (.vint m) (.vint y) = mkDate d m y) ∧
    (mkDate d m y = .ok ⟨d, m, y⟩ ↔
      (1 ≤ y ∧ 1 ≤ m ∧ m ≤ 12 ∧ 1 ≤ d ∧ d ≤ specMaxDay m y)) ∧
    ((¬ (1 ≤ y ∧ 1 ≤ m ∧ m ≤ 12 ∧ 1 ≤ d ∧ d ≤ specMaxDay m y)) →
      ∃ msg, mkDate d m y = .error (.valueError msg)) ∧
    (1 ≤ y → 1 ≤ m → m ≤ 12 → 1 ≤ d → specMaxDay m y < d →
      mkDate d m y = .error (.valueError ("У " ++ toString m ++ "-му місяці не може бути "
        ++ toString d ++ " днів."))) := by
  have hspec := maxDayFor_eq_spec m y
  refine ⟨rfl, ?_, ?_, ?_⟩
  · rw [mkDate_eq_ok]
    unfold Date.Valid
    dsimp only
    rw [hspec]
  · intro h
    apply mkDate_invalid
    unfold Date.Valid
    dsimp only
    rw [hspec]
    exact h
  · intro h1 h2 h3 h4 h5
    exact mkDate_day_overflow d m y h1 h2 h3 h4 (by omega)

/-- Witness for C1 at the leap-year boundary: `Date(29,2,2024)` succeeds and
`Date(30,2,2024)` fails with the message naming month 2 and day count 30. -/
theorem claim1_witness :
    mkDate 29 2 2024 = .ok ⟨29, 2, 2024⟩ ∧
    mkDate 30 2 2024 = .error (.valueError "У 2-му місяці не може бути 30 днів.") := by
  constructor
  · exact (claim1_create_validation 29 2 2024).2.1.mpr (by decide)
  · exact (claim1_create_validation 30 2 2024).2.2.2 (by decide) (by decide) (by decide)
      (by decide) (by decide)

/-- C2 counterexample: a boolean day passes the `isinstance(x, int)` gate
(Python's `bool` subclasses `int`), so construction succeeds instead of
raising the claimed `TypeError`. -/
theorem claim2_counterexample :
    Date.create (.vbool true) (.vint 1) (.vint 2025) = .ok ⟨1, 1, 2025⟩ := by decide

/-- C2 (amended): a triple in which some argument is neither an `int` nor a
`bool` fails with the `TypeError`-class error before any range check; triples
of `int`/`bool` values pass the gate, a `bool` counting as its integer value. -/
theorem claim2_type_gate (a b c : PyVal) :
    (¬ ((a.isInstInt && b.isInstInt && c.isInstInt) = true) →
      Date.create a b c
        = .error (.typeError "День, місяць і рік повинні бути цілими числами.")) ∧
    ((a.isInstInt && b.isInstInt && c.isInstInt) = true →
      Date.create a b c = mkDate a.toInt b.toInt c.toInt) := by
  cases hb : (a.isInstInt && b.isInstInt && c.isInstInt) with
  | false =>
    refine ⟨fun _ => ?_, fun h => absurd h (by decide)⟩
    unfold Date.create
    rw [hb]
    rfl
  | true =>
    refine ⟨fun h => absurd rfl h, fun _ => ?_⟩
    unfold Date.create
    rw [hb]
    rfl

/-- Witness for C2 at a string day: the `TypeError`-class failure. -/
theorem claim2_witness :
    Date.create (.vstr "15") (.vint 2) (.vint 2025)
      = .error (.typeError "День, місяць і рік повинні бути цілими числами.") :=
  (claim2_type_gate (.vstr "15") (.vint 2) (.vint 2025)).1 (by decide)

/-- C3 counterexample: one day before `Date(1,1,1)` the failure is an
`OverflowError`-class error from the calendar collaborator, not the claimed
`ValueError`-class error. -/
theorem claim3_counterexample :
    Date.add ⟨1, 1, 1⟩ (-1) = .error (.overflowError "result out of range") ∧
    isValueErr (Date.add ⟨1, 1, 1⟩ (-1)) = false := by
  exact ⟨by decide, by decide⟩

/-- C3 (amended): for a valid date within the collaborator's range, adding
`n` days fails with an `OverflowError`-class error when the shifted ordinal
leaves `1..MAXORDINAL` (in particular when the result would fall before year
1), and otherwise returns a new valid `Date` advanced by exactly `n`
calendar days. -/
theorem claim3_add_offset (a : Date) (n : Int) (hv : a.Valid) (h9 : a.year ≤ 9999) :
    (((ordOf a : Int) + n < 1 ∨ (MAXORDINAL : Int) < (ordOf a : Int) + n) →
      Date.add a n = .error (.overflowError "result out of range")) ∧
    (1 ≤ (ordOf a : Int) + n → (ordOf a : Int) + n ≤ (MAXORDINAL : Int) →
      ∃ b : Date, Date.add a n = .ok b ∧ b.Valid ∧
        (ordOf b : Int) = (ordOf a : Int) + n) := by
  constructor
  · intro h
    unfold Date.add
    rw [pyDateCheck_ok a hv h9]
    rw [if_pos h]
  · intro h1 h2
    obtain ⟨b, hb1, hb2, _, hb4⟩ := add_ok a n hv h9 h1 h2
    exact ⟨b, hb1, hb2, hb4⟩

/-- Witness for C3: advancing `Date(1,1,2025)` by 10 days succeeds with the
ordinal shifted by exactly 10. -/
theorem claim3_witness :
    ∃ b : Date, Date.add ⟨1, 1, 2025⟩ 10 = .ok b ∧ b.Valid ∧
      (ordOf b : Int) = (ordOf ⟨1, 1, 2025⟩ : Int) + 10 :=
  (claim3_add_offset ⟨1, 1, 2025⟩ 10 (by decide) (by decide)).2 (by decide) (by decide)

/-- C4: `is_leap_year` — as the static helper on any integer year, and as
the instance method delegating to it — is true iff the year is divisible by
4 and (not divisible by 100, or divisible by 400); in particular true for
2024 and 2000 and false for 2025 and 1900. -/
theorem claim4_leap_rule :
    (∀ y : Int, isLeapYear y = true ↔ (4 ∣ y ∧ (¬ (100 ∣ y) ∨ 400 ∣ y))) ∧
    (∀ dt : Date, Date.isLeap dt = isLeapYear dt.year) ∧
    isLeapYear 2024 = true ∧ isLeapYear 2000 = true ∧
    isLeapYear 2025 = false ∧ isLeapYear 1900 = false :=
  ⟨isLeapYear_iff, fun _ => rfl, by decide, by decide, by decide, by decide⟩

/-- Witness for C4: the leap-year rule at 2024. -/
theorem claim4_witness : isLeapYear 2024 = true :=
  claim4_leap_rule.2.2.1

/-- C5: for valid dates within the collaborator's range, `a - b` is the
signed ordinal difference, `a - b = -(b - a)`, and `b + (a - b) = a`. -/
theorem claim5_difference (a b : Date) (hva : a.Valid) (hvb : b.Valid)
    (h9a : a.year ≤ 9999) (h9b : b.year ≤ 9999) :
    Date.sub a b = .ok ((ordOf a : Int) - (ordOf b : Int)) ∧
    (∀ k, Date.sub a b = .ok k → Date.sub b a = .ok (-k)) ∧
    (∀ k, Date.sub a b = .ok k → Date.add b k = .ok a) := by
  have hsab := sub_ok a b hva hvb h9a h9b
  have hsba := sub_ok b a hvb hva h9b h9a
  refine ⟨hsab, ?_, ?_⟩
  · intro k hk
    have hk' : k = (ordOf a : Int) - (ordOf b : Int) := by
      rw [hsab] at hk
      exact (Except.ok.inj hk).symm
    subst hk'
    rw [hsba]
    congr 1
    ring
  · intro k hk
    have hk' : k = (ordOf a : Int) - (ordOf b : Int) := by
      rw [hsab] at hk
      exact (Except.ok.inj hk).symm
    subst hk'
    obtain ⟨hA1, hA2⟩ := ordOf_bounds a hva h9a
    unfold Date.add
    rw [pyDateCheck_ok b hvb h9b]
    have ho : (ordOf b : Int) + ((ordOf a : Int) - (ordOf b : Int)) = (ordOf a : Int) := by
      ring
    rw [ho]
    rw [if_neg (by omega)]
    rw [Int.toNat_natCast, ord2ymd_ordOf a hva h9a]
    obtain ⟨hy, hm, hd, _, _, _, _, _⟩ := Valid_toNat a hva
    show mkDate (a.day.toNat : Int) (a.month.toNat : Int) (a.year.toNat : Int) = .ok a
    rw [← hd, ← hm, ← hy]
    exact (mkDate_eq_ok a.day a.month a.year).mpr hva

/-- Witness for C5 at `Date(16,4,2025)` and `Date(1,1,2025)`: difference
105, antisymmetry, and the roundtrip back to the first date. -/
theorem claim5_witness :
    Date.sub ⟨16, 4, 2025⟩ ⟨1, 1, 2025⟩ = .ok 105 ∧
    Date.sub ⟨1, 1, 2025⟩ ⟨16, 4, 2025⟩ = .ok (-105) ∧
    Date.add ⟨1, 1, 2025⟩ 105 = .ok ⟨16, 4, 2025⟩ := by
  have h := claim5_difference ⟨16, 4, 2025⟩ ⟨1, 1, 2025⟩ (by decide) (by decide)
    (by decide) (by decide)
  have h105 : ((ordOf ⟨16, 4, 2025⟩ : Int) - (ordOf ⟨1, 1, 2025⟩ : Int)) = 105 := by decide
  have h1 : Date.sub ⟨16, 4, 2025⟩ ⟨1, 1, 2025⟩ = .ok 105 := by rw [h.1, h105]
  exact ⟨h1, h.2.1 105 h1, h.2.2 105 h1⟩

/-- C6: `<` and `>` are the lexicographic comparisons of the tuples
`(year, month, day)` and `==` holds iff all three fields agree; in
particular `Date(29,2,2024) > Date(16,4,2025)` is false. -/
theorem claim6_ordering (a b : Date) :
    (Date.lt a b = true ↔
      (a.year < b.year ∨ (a.year = b.year ∧
        (a.month < b.month ∨ (a.month = b.month ∧ a.day < b.day))))) ∧
    (Date.gt a b = true ↔
      (b.year < a.year ∨ (a.year = b.year ∧
        (b.month < a.month ∨ (a.month = b.month ∧ b.day < a.day))))) ∧
    (Date.beq a b = true ↔ (a.day = b.day ∧ a.month = b.month ∧ a.year = b.year)) ∧
    Date.gt ⟨29, 2, 2024⟩ ⟨16, 4, 2025⟩ = false := by
  refine ⟨?_, ?_, ?_, by decide⟩ <;>
    simp [Date.lt, Date.gt, Date.beq, and_assoc, gt_iff_lt]

/-- Witness for C6: the claimed concrete comparison, via the ordering
theorem. -/
theorem claim6_witness : Date.gt ⟨29, 2, 2024⟩ ⟨16, 4, 2025⟩ = false :=
  (claim6_ordering ⟨29, 2, 2024⟩ ⟨16, 4, 2025⟩).2.2.2

/-- C7: `day_of_week` looks up a fixed 7-name Ukrainian table at the
collaborator's weekday index (`(ordinal + 6) % 7`, with ordinal 1 — Monday,
January 1st of year 1 — mapping to index 0); in particular for
`Date(16,4,2025)` it returns the name for Wednesday. -/
theorem claim7_weekday (dt : Date) (hv : dt.Valid) (h9 : dt.year ≤ 9999) :
    Date.dayOfWeek dt = .ok (weekdaysUk.getD ((ordOf dt + 6) % 7) "") ∧
    weekdaysUk.length = 7 ∧
    weekdaysUk.getD 0 "" = "Понеділок" ∧
    (ymd2ord 1 1 1 + 6) % 7 = 0 ∧
    Date.dayOfWeek ⟨16, 4, 2025⟩ = .ok "Середа" := by
  refine ⟨?_, by decide, by decide, by decide, by decide⟩
  unfold Date.dayOfWeek
  rw [pyDateCheck_ok dt hv h9]

/-- Witness for C7: `Date(16,4,2025).day_of_week()` is Wednesday. -/
theorem claim7_witness :
    Date.dayOfWeek ⟨16, 4, 2025⟩ = .ok "Середа" :=
  (claim7_weekday ⟨16, 4, 2025⟩ (by decide) (by decide)).2.2.2.2

/-- C8: `to_string` renders exactly `"DD.MM.YYYY"`: day and month zero-padded
to two characters, dots between the fields, and the year as its plain
(unpadded) decimal digits. -/
theorem claim8_to_string (dt : Date) (hv : dt.Valid) :
    Date.str dt = format02 dt.day ++ "." ++ format02 dt.month ++ "." ++ toString dt.year ∧
    (format02 dt.day).length = 2 ∧ (format02 dt.month).length = 2 ∧
    toString dt.year = Nat.repr dt.year.toNat ∧
    Date.str ⟨16, 4, 2025⟩ = "16.04.2025" := by
  obtain ⟨h1, h2, h3, h4, h5⟩ := hv
  have h31 : maxDayFor dt.month dt.year ≤ 31 := by
    unfold maxDayFor
    split_ifs <;> omega
  exact ⟨rfl, format02_len dt.day (by omega) (by omega),
    format02_len dt.month (by omega) (by omega),
    toString_int_nonneg dt.year (by omega), by decide⟩

/-- Witness for C8: `Date(16,4,2025)` renders as `"16.04.2025"`. -/
theorem claim8_witness :
    Date.str ⟨16, 4, 2025⟩ = "16.04.2025" :=
  (claim8_to_string ⟨16, 4, 2025⟩ (by decide)).2.2.2.2

/-- C9: `month_name` renders `"<day> <month-name-genitive> <year> рік"` from
the fixed 12-entry Ukrainian genitive table indexed by `month - 1` (always
in range for a valid date); in particular `Date(16,4,2025)` renders as
`"16 квітня 2025 рік"`. -/
theorem claim9_month_name (dt : Date) (hv : dt.Valid) :
    Date.monthName dt
      = toString dt.day ++ " " ++ monthsUk.getD (dt.month - 1).toNat "" ++ " "
        ++ toString dt.year ++ " рік" ∧
    monthsUk.length = 12 ∧
    (dt.month - 1).toNat + 1 ≤ 12 ∧
    Date.monthName ⟨16, 4, 2025⟩ = "16 квітня 2025 рік" := by
  obtain ⟨h1, h2, h3, h4, h5⟩ := hv
  exact ⟨rfl, by decide, by omega, by decide⟩

/-- Witness for C9: the exact rendering at `Date(16,4,2025)`. -/
theorem claim9_witness :
    Date.monthName ⟨16, 4, 2025⟩ = "16 квітня 2025 рік" :=
  (claim9_month_name ⟨16, 4, 2025⟩ (by decide)).2.2.2

/-- C10: construction accepts any year ≥ 1, but on a valid date whose year
exceeds 9999 the difference, day-offset and weekday operations all fail
(with the collaborator's `ValueError`), even though the date itself was
constructed successfully. -/
theorem claim10_big_year (dt : Date) (hv : dt.Valid) (h9 : 9999 < dt.year) :
    mkDate dt.day dt.month dt.year = .ok dt ∧
    (∀ b : Date, ∃ msg, Date.sub dt b = .error (.valueError msg)) ∧
    (∀ n : Int, ∃ msg, Date.add dt n = .error (.valueError msg)) ∧
    (∃ msg, Date.dayOfWeek dt = .error (.valueError msg)) := by
  have hpc := pyDateCheck_bigYear dt.year dt.month dt.day h9
  refine ⟨(mkDate_eq_ok dt.day dt.month dt.year).mpr hv, ?_, ?_, ?_⟩
  · intro b
    exact ⟨"year " ++ toString dt.year ++ " is out of range",
      by unfold Date.sub; rw [hpc]⟩
  · intro n
    exact ⟨"year " ++ toString dt.year ++ " is out of range",
      by unfold Date.add; rw [hpc]⟩
  · exact ⟨"year " ++ toString dt.year ++ " is out of range",
      by unfold Date.dayOfWeek; rw [hpc]⟩

/-- Witness for C10 at `Date(1,1,10000)`: construction succeeds, the three
calendar operations fail. -/
theorem claim10_witness :
    mkDate 1 1 10000 = .ok ⟨1, 1, 10000⟩ ∧
    (∃ msg, Date.sub ⟨1, 1, 10000⟩ ⟨1, 1, 2025⟩ = .error (.valueError msg)) ∧
    (∃ msg, Date.add ⟨1, 1, 10000⟩ 5 = .error (.valueError msg)) ∧
    (∃ msg, Date.dayOfWeek ⟨1, 1, 10000⟩ = .error (.valueError msg)) := by
  have h := claim10_big_year ⟨1, 1, 10000⟩ (by decide) (by decide)
  exact ⟨h.1, h.2.1 ⟨1, 1, 2025⟩, h.2.2.1 5, h.2.2.2⟩

end Lab4
